import Mathlib

/-!
Verification of the GPD Win 4 (7840U) fan control driver (src/gpd-fan.c)
against its natural-language specification.

The driver is shallowly embedded: machine integers are modelled as Nat
(with explicit reduction where the C code truncates), the EC hardware is
an oracle function from register addresses to byte values, and the side
effects of each driver function (port I/O, EC register reads/writes,
mutex operations) are made explicit as event traces returned alongside
the functional result.  Two levels of trace are used: a register-level
trace (lock, unlock, register read, register write) for the fan
controller functions, and a port-level trace (outb/inb on the two EC
ports) for the transport protocol, together with a two-thread
interleaving semantics for the mutual-exclusion property.
-/

set_option maxRecDepth 100000

namespace GpdFan

/-! ## Constants from src/gpd-fan.c -/

def EC_ADDR_PORT : Nat := 0x4E
def EC_DATA_PORT : Nat := 0x4F

def REG_MANUAL_ENABLE : Nat := 0x0275
def REG_RPM_HIGH : Nat := 0x0218
def REG_RPM_LOW : Nat := 0x0219
def REG_PWM : Nat := 0x1809
def PWM_MAX_VAL : Nat := 184

/-- Error numbers, from the kernel headers (errno.h); the driver returns
them negated, modelled here as the error branch of an Except value. -/
def EINVAL : Nat := 22

def EOPNOTSUPP : Nat := 95

/-- Attribute identifiers from the kernel hwmon header (linux/hwmon.h):
hwmon_fan_input is index 1 of the fan attribute enum, hwmon_pwm_input
index 0 and hwmon_pwm_enable index 1 of the pwm attribute enum. -/
def hwmon_fan_input : Nat := 1

def hwmon_pwm_input : Nat := 0

def hwmon_pwm_enable : Nat := 1

/-- The hwmon sensor types the driver compares against; every type other
than hwmon_fan and hwmon_pwm is handled identically (fall through to
EOPNOTSUPP), so they are collapsed into one constructor. -/
inductive HwmonType where
  | hwmon_fan
  | hwmon_pwm
  | hwmon_other
  deriving DecidableEq, Repr

/-! ## PWM scaler (scale_pwm, src/gpd-fan.c lines 78-83) -/

/-- Kernel macro DIV_ROUND_CLOSEST for non-negative arguments:
(x + d/2) / d in truncating integer arithmetic. -/
def DIV_ROUND_CLOSEST (x d : Nat) : Nat := (x + d / 2) / d

/-- scale_pwm from src/gpd-fan.c: scale 0-255 into 1-184.  The C argument
is u8, so the Nat model is meaningful on inputs 0..255. -/
def scale_pwm (val : Nat) : Nat :=
  if val ≥ 255 then PWM_MAX_VAL
  else if val = 0 then 1
  else 1 + DIV_ROUND_CLOSEST (val * (PWM_MAX_VAL - 1)) 255

/-- Round-half-up of num / den: floor(num/den + 1/2).  This is the
reference rounding named by the spec, written from the spec text. -/
def roundHalfUp (num den : Nat) : Nat := (2 * num + den) / (2 * den)

/-- Reference scaler, written from the spec words of section 4.2:
duty 255 to 184, duty 0 to 1, otherwise 1 + round-half-up(duty*183/255). -/
def scale_spec (duty : Nat) : Nat :=
  if duty = 255 then 184
  else if duty = 0 then 1
  else 1 + roundHalfUp (duty * 183) 255

/-! ## Register-level events and the fan controller state

Each fan controller function is modelled as a pure function that returns
its result together with the trace of mutex and EC register events it
performs, in order.  The EC hardware is an oracle from register address
to stored value; ec_read truncates to a byte (u8 return type). -/

/-- One register-level event: mutex acquire/release (the single ec_lock
mutex of the driver) or one logical EC register access performed while
the mutex is held. -/
inductive Ev where
  | lock
  | unlock
  | rd (addr : Nat)
  | wr (addr val : Nat)
  deriving DecidableEq, Repr

def isLockEv : Ev → Bool
  | Ev.lock => true
  | _ => false

def isRegEv : Ev → Bool
  | Ev.rd _ => true
  | Ev.wr _ _ => true
  | _ => false

/-- Number of mutex acquisitions in a register-level trace. -/
def lockCount (tr : List Ev) : Nat := tr.countP isLockEv

/-- Number of logical EC register accesses in a register-level trace. -/
def regOpCount (tr : List Ev) : Nat := tr.countP isRegEv

/-- struct gpd_fan_data: cached duty (u8, 0..255) and mode flag. -/
structure GpdFanData where
  pwm_value : Nat
  manual_mode : Bool
  deriving DecidableEq, Repr

/-- Initial value of fan_data in src/gpd-fan.c lines 37-40. -/
def initFanData : GpdFanData := { pwm_value := 255, manual_mode := false }

/-- Value returned by ec_read: the oracle's byte at the address (u8). -/
def ec_read_val (hw : Nat → Nat) (addr : Nat) : Nat := hw addr % 256

/-- read_rpm (src/gpd-fan.c lines 86-93): lock once, read the high and
low RPM byte registers, unlock, and combine as (high << 8) | low. -/
def read_rpm (hw : Nat → Nat) : Nat × List Ev :=
  ((ec_read_val hw REG_RPM_HIGH <<< 8) ||| ec_read_val hw REG_RPM_LOW,
   [Ev.lock, Ev.rd REG_RPM_HIGH, Ev.rd REG_RPM_LOW, Ev.unlock])

/-- set_fan_speed (src/gpd-fan.c lines 96-104): scale the duty, then
under the lock write the scaled value to the PWM register followed by 1
to the manual-enable register; afterwards update the cached duty.  The
mode flag is not touched here (the caller sets it). -/
def set_fan_speed (d : GpdFanData) (pwm_255 : Nat) : GpdFanData × List Ev :=
  let scaled := scale_pwm pwm_255
  ({ d with pwm_value := pwm_255 },
   [Ev.lock, Ev.wr REG_PWM scaled, Ev.wr REG_MANUAL_ENABLE 1, Ev.unlock])

/-- set_auto_mode (src/gpd-fan.c lines 107-113): write 0 to the
manual-enable register under the lock, then clear the mode flag. -/
def set_auto_mode (d : GpdFanData) : GpdFanData × List Ev :=
  ({ d with manual_mode := false },
   [Ev.lock, Ev.wr REG_MANUAL_ENABLE 0, Ev.unlock])

/-- fan_read (src/gpd-fan.c lines 128-146).  Returns the value written
through *val on success or the (positive) errno otherwise, together with
the trace of hardware events. -/
def fan_read (d : GpdFanData) (hw : Nat → Nat) (type : HwmonType)
    (attr : Nat) : Except Nat Nat × List Ev :=
  if type = HwmonType.hwmon_fan ∧ attr = hwmon_fan_input then
    let r := read_rpm hw
    (Except.ok r.1, r.2)
  else if type = HwmonType.hwmon_pwm ∧ attr = hwmon_pwm_enable then
    (Except.ok (if d.manual_mode then 1 else 0), [])
  else if type = HwmonType.hwmon_pwm ∧ attr = hwmon_pwm_input then
    (Except.ok (if d.manual_mode then d.pwm_value else 0), [])
  else (Except.error EOPNOTSUPP, [])

/-- fan_write (src/gpd-fan.c lines 148-176).  The written value is a C
long, hence Int.  Returns the status, the fan state after the call and
the trace of hardware events.  In the pwm-input branch the assignment of
val to the u8 field pwm_value is exact because the preceding range check
bounds val to 0..255. -/
def fan_write (d : GpdFanData) (type : HwmonType) (attr : Nat)
    (val : Int) : (Except Nat Unit × GpdFanData) × List Ev :=
  if type ≠ HwmonType.hwmon_pwm then ((Except.error EOPNOTSUPP, d), [])
  else if attr = hwmon_pwm_enable then
    if val < 0 ∨ val > 1 then ((Except.error EINVAL, d), [])
    else if val = 1 then
      let d1 : GpdFanData := { d with manual_mode := true }
      let r := set_fan_speed d1 d1.pwm_value
      ((Except.ok (), r.1), r.2)
    else
      let r := set_auto_mode d
      ((Except.ok (), r.1), r.2)
  else if attr = hwmon_pwm_input then
    if val < 0 ∨ val > 255 then ((Except.error EINVAL, d), [])
    else
      let d1 : GpdFanData := { d with pwm_value := val.toNat }
      if d1.manual_mode then
        let r := set_fan_speed d1 val.toNat
        ((Except.ok (), r.1), r.2)
      else ((Except.ok (), d1), [])
  else ((Except.error EOPNOTSUPP, d), [])

/-- gpd_remove (src/gpd-fan.c lines 223-226): return control to the
firmware by calling set_auto_mode, whatever the current state. -/
def gpd_remove (d : GpdFanData) : GpdFanData × List Ev := set_auto_mode d

/-- A concrete all-zero EC register file, used for concrete evaluations. -/
def hwZero : Nat → Nat := fun _ => 0

/-- A concrete EC register file whose RPM bytes are 0x01 and 0x2C. -/
def hwRpm : Nat → Nat := fun a =>
  if a = REG_RPM_HIGH then 0x01 else if a = REG_RPM_LOW then 0x2C else 0

/-! ## Port-level transport model (ec_write / ec_read, lines 43-75)

Each logical EC register access expands to a fixed sequence of accesses
to the two EC ports: three pointer-register selections, each a pair of
outb calls, interleaved with the address bytes and ending with the
payload byte (written for ec_write, read for ec_read). -/

/-- One raw port access: outb writes a byte to a port, inb reads the
data port. -/
inductive PortOp where
  | outb (port val : Nat)
  | inb (port : Nat)
  deriving DecidableEq, Repr

/-- The port sequence of ec_write (src/gpd-fan.c lines 43-57), in
order: outb(0x2E, ADDR), outb(0x11, DATA), outb(0x2F, ADDR),
outb(addr >> 8, DATA), outb(0x2E, ADDR), outb(0x10, DATA),
outb(0x2F, ADDR), outb(addr & 0xFF, DATA), outb(0x2E, ADDR),
outb(0x12, DATA), outb(0x2F, ADDR), outb(val, DATA). -/
def ec_write_ports (addr val : Nat) : List PortOp :=
  [PortOp.outb EC_ADDR_PORT 0x2E, PortOp.outb EC_DATA_PORT 0x11,
   PortOp.outb EC_ADDR_PORT 0x2F, PortOp.outb EC_DATA_PORT (addr >>> 8),
   PortOp.outb EC_ADDR_PORT 0x2E, PortOp.outb EC_DATA_PORT 0x10,
   PortOp.outb EC_ADDR_PORT 0x2F, PortOp.outb EC_DATA_PORT (addr &&& 0xFF),
   PortOp.outb EC_ADDR_PORT 0x2E, PortOp.outb EC_DATA_PORT 0x12,
   PortOp.outb EC_ADDR_PORT 0x2F, PortOp.outb EC_DATA_PORT val]

/-- The port sequence of ec_read (src/gpd-fan.c lines 59-75): the same
eleven outb calls as ec_write up to the payload, then one inb of the
data port. -/
def ec_read_ports (addr : Nat) : List PortOp :=
  [PortOp.outb EC_ADDR_PORT 0x2E, PortOp.outb EC_DATA_PORT 0x11,
   PortOp.outb EC_ADDR_PORT 0x2F, PortOp.outb EC_DATA_PORT (addr >>> 8),
   PortOp.outb EC_ADDR_PORT 0x2E, PortOp.outb EC_DATA_PORT 0x10,
   PortOp.outb EC_ADDR_PORT 0x2F, PortOp.outb EC_DATA_PORT (addr &&& 0xFF),
   PortOp.outb EC_ADDR_PORT 0x2E, PortOp.outb EC_DATA_PORT 0x12,
   PortOp.outb EC_ADDR_PORT 0x2F, PortOp.inb EC_DATA_PORT]

/-- A complete transport sequence: the full port sequence of one
ec_write or one ec_read. -/
def IsTransportSeq (s : List PortOp) : Prop :=
  (∃ a v, s = ec_write_ports a v) ∨ (∃ a, s = ec_read_ports a)

/-- A port trace that is a concatenation of complete, non-overlapping
transport sequences. -/
def GoodTrace (tr : List PortOp) : Prop :=
  ∃ ss : List (List PortOp), tr = ss.flatten ∧ ∀ s ∈ ss, IsTransportSeq s

/-- Port payload of the critical section of read_rpm: two back-to-back
ec_read sequences under one lock acquisition. -/
def read_rpm_cs : List PortOp :=
  ec_read_ports REG_RPM_HIGH ++ ec_read_ports REG_RPM_LOW

/-- Port payload of the critical section of set_fan_speed. -/
def set_fan_speed_cs (duty : Nat) : List PortOp :=
  ec_write_ports REG_PWM (scale_pwm duty) ++ ec_write_ports REG_MANUAL_ENABLE 1

/-- Port payload of the critical section of set_auto_mode. -/
def set_auto_mode_cs : List PortOp :=
  ec_write_ports REG_MANUAL_ENABLE 0

/-! ## Two-thread interleaving semantics for the bus lock

A thread's program is a list of instructions: acquire the bus lock,
release it, or perform one port access.  Driver code only performs port
accesses between a lock and the matching unlock; the semantics itself
does not forbid a port access without the lock, so mutual exclusion is a
consequence of program structure plus lock blocking, not an assumption.
The trace records every port access in the order it reaches the bus. -/

inductive Instr where
  | lock
  | unlock
  | port (op : PortOp)
  deriving DecidableEq, Repr

/-- A configuration of a two-thread execution: which thread (if any)
holds the bus lock, the remaining program of each thread, and the port
accesses performed so far. -/
structure Config where
  holder : Option Bool
  prog : Bool → List Instr
  trace : List PortOp

/-- Replace thread t's remaining program. -/
def setProg (p : Bool → List Instr) (t : Bool) (l : List Instr) :
    Bool → List Instr :=
  fun u => if u = t then l else p u

/-- One step of the interleaving semantics: any thread whose next
instruction is enabled may move.  Acquiring the lock requires it to be
free; releasing requires being the holder; a port access is always
enabled (the hardware does not check the lock). -/
inductive Step : Config → Config → Prop where
  | lock {p : Bool → List Instr} {tr t rest} :
      p t = Instr.lock :: rest →
      Step ⟨none, p, tr⟩ ⟨some t, setProg p t rest, tr⟩
  | unlock {p : Bool → List Instr} {tr t rest} :
      p t = Instr.unlock :: rest →
      Step ⟨some t, p, tr⟩ ⟨none, setProg p t rest, tr⟩
  | port {h : Option Bool} {p : Bool → List Instr} {tr t op rest} :
      p t = Instr.port op :: rest →
      Step ⟨h, p, tr⟩ ⟨h, setProg p t rest, tr ++ [op]⟩

/-- Reflexive-transitive closure of Step. -/
def Exec : Config → Config → Prop := Relation.ReflTransGen Step

/-- Compile a list of critical-section payloads into a thread program:
each payload becomes lock, its port accesses, unlock. -/
def progOf (bs : List (List PortOp)) : List Instr :=
  (bs.map fun b => Instr.lock :: (b.map Instr.port ++ [Instr.unlock])).flatten

/-- A remaining program that is a sequence of whole critical sections
whose payloads are concatenations of complete transport sequences. -/
def GoodProg (l : List Instr) : Prop :=
  ∃ bs, l = progOf bs ∧ ∀ b ∈ bs, GoodTrace b

/-- Initial configuration: lock free, no trace, thread false runs the
critical sections bs0 and thread true runs bs1. -/
def initConfig (bs0 bs1 : List (List PortOp)) : Config :=
  ⟨none, fun t => if t then progOf bs1 else progOf bs0, []⟩

/-- Both threads have run to completion. -/
def Terminal (c : Config) : Prop := ∀ t, c.prog t = []

/-- Inductive invariant of the interleaving semantics: when the lock is
free the trace is a concatenation of complete transport sequences and
both programs are whole critical sections; when thread t holds the lock,
the trace is such a concatenation followed by the already-performed part
of t's current critical section. -/
def Inv (c : Config) : Prop :=
  match c.holder with
  | none => GoodTrace c.trace ∧ ∀ t, GoodProg (c.prog t)
  | some t =>
      GoodProg (c.prog (!t)) ∧
      ∃ pre fin rem rest,
        c.trace = pre ++ fin ∧
        GoodTrace pre ∧ GoodTrace (fin ++ rem) ∧
        c.prog t = rem.map Instr.port ++ Instr.unlock :: rest ∧
        GoodProg rest

end GpdFan

namespace GpdFan

/-! ## Helper lemmas -/

theorem goodTrace_nil : GoodTrace [] := ⟨[], rfl, by simp⟩

theorem goodTrace_append {a b : List PortOp} (ha : GoodTrace a)
    (hb : GoodTrace b) : GoodTrace (a ++ b) := by
  obtain ⟨sa, rfl, hsa⟩ := ha
  obtain ⟨sb, rfl, hsb⟩ := hb
  exact ⟨sa ++ sb, by simp, by
    intro s hs
    rcases List.mem_append.mp hs with h | h
    · exact hsa s h
    · exact hsb s h⟩

theorem progOf_cons (b : List PortOp) (bs : List (List PortOp)) :
    progOf (b :: bs)
      = Instr.lock :: (b.map Instr.port ++ Instr.unlock :: progOf bs) := by
  simp [progOf]

theorem goodProg_shape {l : List Instr} (h : GoodProg l) :
    l = [] ∨
    ∃ b bs, l = Instr.lock :: (b.map Instr.port ++ Instr.unlock :: progOf bs)
      ∧ GoodTrace b ∧ ∀ x ∈ bs, GoodTrace x := by
  obtain ⟨bs, rfl, hbs⟩ := h
  cases bs with
  | nil => exact Or.inl rfl
  | cons b bs =>
      refine Or.inr ⟨b, bs, progOf_cons b bs, hbs b (by simp), ?_⟩
      intro x hx
      exact hbs x (by simp [hx])

theorem setProg_self (p : Bool → List Instr) (t : Bool) (l : List Instr) :
    setProg p t l t = l := by simp [setProg]

theorem setProg_other {t u : Bool} (p : Bool → List Instr) (l : List Instr)
    (h : u ≠ t) : setProg p t l u = p u := by simp [setProg, h]

theorem setProg_setProg (p : Bool → List Instr) (t : Bool)
    (l₁ l₂ : List Instr) : setProg (setProg p t l₁) t l₂ = setProg p t l₂ := by
  funext u
  by_cases h : u = t <;> simp [setProg, h]

theorem length_of_transportSeq {s : List PortOp} (h : IsTransportSeq s) :
    s.length = 12 := by
  rcases h with ⟨a, v, rfl⟩ | ⟨a, rfl⟩ <;> rfl

/-! ## Claim theorems -/

/-- C1: the PWM scaler equals the reference definition on the whole u8
domain: scale(255) = 184, scale(0) = 1, and for duty in 1..254,
scale(duty) = 1 + round-half-up(duty*183/255). -/
theorem scale_pwm_matches_spec :
    ∀ duty : Nat, duty ≤ 255 → scale_pwm duty = scale_spec duty := by
  decide

/-- Witness for C1 at duty = 200. -/
theorem scale_pwm_matches_spec_witness :
    scale_pwm 200 = scale_spec 200 ∧ scale_pwm 200 = 145 :=
  ⟨scale_pwm_matches_spec 200 (by decide), by decide⟩

/-- C6: scale_pwm is monotonically non-decreasing on 0..255, and sends
every duty in 1..254 into the interval 1..184. -/
theorem scale_pwm_monotone_and_bounded :
    (∀ a b : Nat, b ≤ 255 → a ≤ b → scale_pwm a ≤ scale_pwm b) ∧
    (∀ duty : Nat, 1 ≤ duty → duty ≤ 254 →
      1 ≤ scale_pwm duty ∧ scale_pwm duty ≤ 184) := by
  constructor
  · intro a b hb hab
    revert hab
    revert a
    revert hb
    revert b
    decide
  · decide

/-- Witness for C6 at a = 100, b = 200 and duty = 100. -/
theorem scale_pwm_monotone_and_bounded_witness :
    scale_pwm 100 ≤ scale_pwm 200 ∧
    (1 ≤ scale_pwm 100 ∧ scale_pwm 100 ≤ 184) :=
  ⟨scale_pwm_monotone_and_bounded.1 100 200 (by decide) (by decide),
   scale_pwm_monotone_and_bounded.2 100 (by decide) (by decide)⟩

/-- C4: a pwm-enable write with a value outside 0..1, and a pwm-input
write with a value outside 0..255, both fail with EINVAL, leave the fan
state unchanged, and perform no hardware event at all. -/
theorem fan_write_invalid_rejected :
    ∀ (d : GpdFanData) (v : Int),
      ((v < 0 ∨ v > 1) →
        fan_write d HwmonType.hwmon_pwm hwmon_pwm_enable v
          = ((Except.error EINVAL, d), [])) ∧
      ((v < 0 ∨ v > 255) →
        fan_write d HwmonType.hwmon_pwm hwmon_pwm_input v
          = ((Except.error EINVAL, d), [])) := by
  intro d v
  constructor
  · intro hv
    simp [fan_write, hwmon_pwm_enable, hwmon_pwm_input, hv]
  · intro hv
    simp [fan_write, hwmon_pwm_enable, hwmon_pwm_input, hv]

/-- Witness for C4 at value -1 (outside both ranges), initial state. -/
theorem fan_write_invalid_rejected_witness :
    fan_write initFanData HwmonType.hwmon_pwm hwmon_pwm_enable (-1)
      = ((Except.error EINVAL, initFanData), []) ∧
    fan_write initFanData HwmonType.hwmon_pwm hwmon_pwm_input (-1)
      = ((Except.error EINVAL, initFanData), []) :=
  ⟨(fan_write_invalid_rejected initFanData (-1)).1 (Or.inl (by decide)),
   (fan_write_invalid_rejected initFanData (-1)).2 (Or.inl (by decide))⟩

/-- C5: teardown (gpd_remove) always performs exactly the set_auto_mode
sequence: a manual-enable = 0 register write between one lock/unlock
pair, whatever the mode at teardown time, and leaves the cached mode
Auto. -/
theorem gpd_remove_forces_auto :
    ∀ d : GpdFanData,
      (gpd_remove d).2 = [Ev.lock, Ev.wr REG_MANUAL_ENABLE 0, Ev.unlock] ∧
      Ev.wr REG_MANUAL_ENABLE 0 ∈ (gpd_remove d).2 ∧
      (gpd_remove d).1.manual_mode = false := by
  intro d
  refine ⟨rfl, ?_, rfl⟩
  simp [gpd_remove, set_auto_mode]

/-- C7: read_rpm combines the two bytes returned by the RPM-high and
RPM-low register reads as (high << 8) | low, and its trace is exactly
the two register reads (re-read on every call, nothing cached). -/
theorem read_rpm_combines_bytes :
    ∀ (hw : Nat → Nat) (high low : Nat),
      hw REG_RPM_HIGH = high → hw REG_RPM_LOW = low →
      high < 256 → low < 256 →
      (read_rpm hw).1 = (high <<< 8) ||| low ∧
      (read_rpm hw).2
        = [Ev.lock, Ev.rd REG_RPM_HIGH, Ev.rd REG_RPM_LOW, Ev.unlock] := by
  intro hw high low hh hl hhb hlb
  constructor
  · simp [read_rpm, ec_read_val, hh, hl, Nat.mod_eq_of_lt hhb,
      Nat.mod_eq_of_lt hlb]
  · rfl

/-- Witness for C7: high byte 0x01, low byte 0x2C give 0x012C = 300. -/
theorem read_rpm_combines_bytes_witness :
    (read_rpm hwRpm).1 = 300 ∧
    (read_rpm hwRpm).2
      = [Ev.lock, Ev.rd REG_RPM_HIGH, Ev.rd REG_RPM_LOW, Ev.unlock] := by
  have h := read_rpm_combines_bytes hwRpm 0x01 0x2C (by decide) (by decide)
    (by decide) (by decide)
  exact ⟨h.1.trans (by decide), h.2⟩

/-- C9 counterexample: read_rpm's trace performs its two register reads
inside a single lock acquisition, so the number of lock acquisitions (1)
differs from the number of register accesses (2) — each register access
is not its own bus-lock critical section, and the two reads are not two
independent locked operations. -/
theorem read_rpm_not_two_locked_ops :
    lockCount (read_rpm hwZero).2 = 1 ∧
    regOpCount (read_rpm hwZero).2 = 2 ∧
    ¬ lockCount (read_rpm hwZero).2 = regOpCount (read_rpm hwZero).2 := by
  decide

/-- C9 amended: read_rpm reads the high and low RPM byte registers
back-to-back inside one bus-lock critical section: its trace is one
lock, the two reads, one unlock. -/
theorem read_rpm_single_critical_section :
    ∀ hw : Nat → Nat,
      (read_rpm hw).2
        = [Ev.lock, Ev.rd REG_RPM_HIGH, Ev.rd REG_RPM_LOW, Ev.unlock] ∧
      lockCount (read_rpm hw).2 = 1 ∧
      regOpCount (read_rpm hw).2 = 2 := by
  intro hw
  exact ⟨rfl, rfl, rfl⟩

/-- Case analysis of the hardware trace of fan_write: it is empty (error
paths and the cache-only Auto path), the set_auto_mode sequence, or the
set_fan_speed sequence whose PWM write carries the scaled value of the
duty cached by the operation. -/
theorem fan_write_trace_cases (d : GpdFanData) (type : HwmonType)
    (attr : Nat) (val : Int) :
    (fan_write d type attr val).2 = [] ∨
    (fan_write d type attr val).2
      = [Ev.lock, Ev.wr REG_MANUAL_ENABLE 0, Ev.unlock] ∨
    (fan_write d type attr val).2
      = [Ev.lock,
         Ev.wr REG_PWM (scale_pwm ((fan_write d type attr val).1.2.pwm_value)),
         Ev.wr REG_MANUAL_ENABLE 1, Ev.unlock] := by
  cases type with
  | hwmon_fan => exact Or.inl rfl
  | hwmon_other => exact Or.inl rfl
  | hwmon_pwm =>
      by_cases he : attr = hwmon_pwm_enable
      · by_cases hv : val < 0 ∨ val > 1
        · exact Or.inl (by simp [fan_write, hwmon_pwm_enable,
            hwmon_pwm_input, he, hv])
        · by_cases h1 : val = 1
          · refine Or.inr (Or.inr ?_)
            simp [fan_write, hwmon_pwm_enable, hwmon_pwm_input, he, hv, h1,
              set_fan_speed]
          · refine Or.inr (Or.inl ?_)
            simp [fan_write, hwmon_pwm_enable, hwmon_pwm_input, he, hv, h1,
              set_auto_mode]
      · by_cases hi : attr = hwmon_pwm_input
        · by_cases hv : val < 0 ∨ val > 255
          · exact Or.inl (by simp [fan_write, hwmon_pwm_enable,
              hwmon_pwm_input, he, hi, hv])
          · by_cases hm : d.manual_mode
            · refine Or.inr (Or.inr ?_)
              simp [fan_write, hwmon_pwm_enable, hwmon_pwm_input, he, hi,
                hv, hm, set_fan_speed]
            · exact Or.inl (by simp [fan_write, hwmon_pwm_enable,
                hwmon_pwm_input, he, hi, hv, hm])
        · refine Or.inl ?_
          simp only [hwmon_pwm_enable] at he
          simp only [hwmon_pwm_input] at hi
          simp [fan_write, hwmon_pwm_enable, hwmon_pwm_input, he, hi]

/-- C2: in the trace of any fan_write operation, every write of 1 to the
manual-enable register is preceded by the write of the scaled duty to
the PWM register, the duty being exactly the one the operation caches:
the EC is never manual-enabled at a stale duty. -/
theorem manual_enable_preceded_by_pwm_write :
    ∀ (d : GpdFanData) (type : HwmonType) (attr : Nat) (val : Int) (j : Nat),
      ((fan_write d type attr val).2).get? j
        = some (Ev.wr REG_MANUAL_ENABLE 1) →
      ∃ i, i < j ∧
        ((fan_write d type attr val).2).get? i
          = some (Ev.wr REG_PWM
              (scale_pwm ((fan_write d type attr val).1.2.pwm_value))) := by
  intro d type attr val j hj
  rcases fan_write_trace_cases d type attr val with hc | hc | hc
  · rw [hc] at hj
    simp at hj
  · rw [hc] at hj
    rcases j with _ | _ | _ | j <;>
      simp [List.get?, REG_MANUAL_ENABLE] at hj
  · rw [hc] at hj
    rw [hc]
    rcases j with _ | _ | _ | _ | j
    · simp [List.get?] at hj
    · simp [List.get?, REG_PWM, REG_MANUAL_ENABLE] at hj
    · exact ⟨1, by omega, rfl⟩
    · simp [List.get?] at hj
    · simp [List.get?] at hj

/-- Witness for C2: enabling manual mode from the initial state puts the
manual-enable = 1 write at index 2, preceded at index 1 by the PWM write
of the scaled cached duty. -/
theorem manual_enable_preceded_by_pwm_write_witness :
    ∃ i, i < 2 ∧
      ((fan_write initFanData HwmonType.hwmon_pwm hwmon_pwm_enable 1).2).get? i
        = some (Ev.wr REG_PWM (scale_pwm
            ((fan_write initFanData HwmonType.hwmon_pwm
              hwmon_pwm_enable 1).1.2.pwm_value))) :=
  manual_enable_preceded_by_pwm_write initFanData HwmonType.hwmon_pwm
    hwmon_pwm_enable 1 2 (by decide)

/-- C3: from Auto mode, a pwm-input write only updates the cached duty
and performs no hardware event; mode still reads 0 and pwm input still
reads 0; a subsequent pwm-enable = 1 write (no duty argument) applies
the scaled cached duty to the PWM register — the value was cached, not
discarded, while Auto. -/
theorem auto_mode_caches_duty :
    ∀ (d : GpdFanData) (v : Int) (hw : Nat → Nat),
      d.manual_mode = false → 0 ≤ v → v ≤ 255 →
      fan_write d HwmonType.hwmon_pwm hwmon_pwm_input v
        = ((Except.ok (), { pwm_value := v.toNat, manual_mode := false }), []) ∧
      fan_read { pwm_value := v.toNat, manual_mode := false } hw
          HwmonType.hwmon_pwm hwmon_pwm_enable = (Except.ok 0, []) ∧
      fan_read { pwm_value := v.toNat, manual_mode := false } hw
          HwmonType.hwmon_pwm hwmon_pwm_input = (Except.ok 0, []) ∧
      (fan_write { pwm_value := v.toNat, manual_mode := false }
          HwmonType.hwmon_pwm hwmon_pwm_enable 1).2
        = [Ev.lock, Ev.wr REG_PWM (scale_pwm v.toNat),
           Ev.wr REG_MANUAL_ENABLE 1, Ev.unlock] := by
  intro d v hw hm h0 h255
  have hnv : ¬ (v < 0 ∨ v > 255) := by omega
  refine ⟨?_, ?_, ?_, ?_⟩
  · simp [fan_write, hwmon_pwm_enable, hwmon_pwm_input, hnv, hm]
  · simp [fan_read, hwmon_fan_input, hwmon_pwm_enable, hwmon_pwm_input]
  · simp [fan_read, hwmon_fan_input, hwmon_pwm_enable, hwmon_pwm_input]
  · simp [fan_write, hwmon_pwm_enable, hwmon_pwm_input, set_fan_speed]

/-- Witness for C3 at duty 200: no hardware event on the Auto-mode
write, both reads report 0, and the later enable write applies
scale(200) = 145 to the PWM register. -/
theorem auto_mode_caches_duty_witness :
    fan_write initFanData HwmonType.hwmon_pwm hwmon_pwm_input 200
      = ((Except.ok (), { pwm_value := 200, manual_mode := false }), []) ∧
    fan_read { pwm_value := 200, manual_mode := false } hwZero
        HwmonType.hwmon_pwm hwmon_pwm_enable = (Except.ok 0, []) ∧
    fan_read { pwm_value := 200, manual_mode := false } hwZero
        HwmonType.hwmon_pwm hwmon_pwm_input = (Except.ok 0, []) ∧
    (fan_write { pwm_value := 200, manual_mode := false }
        HwmonType.hwmon_pwm hwmon_pwm_enable 1).2
      = [Ev.lock, Ev.wr REG_PWM 145, Ev.wr REG_MANUAL_ENABLE 1,
         Ev.unlock] := by
  have h := auto_mode_caches_duty initFanData 200 hwZero rfl
    (by decide) (by decide)
  have ht : (200 : Int).toNat = 200 := rfl
  have hs : scale_pwm 200 = 145 := by decide
  simp only [ht, hs] at h
  exact h

theorem bool_not_ne (t : Bool) : (!t) ≠ t := by cases t <;> simp

theorem bool_eq_not_of_ne {u t : Bool} (h : u ≠ t) : u = !t := by
  cases u <;> cases t <;> simp_all

/-- Introduction form of the invariant for a lock-free configuration. -/
theorem inv_none {p : Bool → List Instr} {tr : List PortOp}
    (h1 : GoodTrace tr) (h2 : ∀ u, GoodProg (p u)) :
    Inv ⟨none, p, tr⟩ := ⟨h1, h2⟩

/-- Elimination form of the invariant for a lock-free configuration. -/
theorem inv_none_elim {p : Bool → List Instr} {tr : List PortOp}
    (h : Inv ⟨none, p, tr⟩) : GoodTrace tr ∧ ∀ u, GoodProg (p u) := h

/-- Introduction form of the invariant while thread t holds the lock. -/
theorem inv_some {p : Bool → List Instr} {tr : List PortOp} {t : Bool}
    (hother : GoodProg (p (!t))) (pre fin rem : List PortOp)
    (rest : List Instr) (htr : tr = pre ++ fin) (hpre : GoodTrace pre)
    (hfin : GoodTrace (fin ++ rem))
    (hpt : p t = rem.map Instr.port ++ Instr.unlock :: rest)
    (hrest : GoodProg rest) : Inv ⟨some t, p, tr⟩ :=
  ⟨hother, pre, fin, rem, rest, htr, hpre, hfin, hpt, hrest⟩

/-- Elimination form of the invariant while thread t holds the lock. -/
theorem inv_some_elim {p : Bool → List Instr} {tr : List PortOp} {t : Bool}
    (h : Inv ⟨some t, p, tr⟩) :
    GoodProg (p (!t)) ∧
    ∃ pre fin rem rest, tr = pre ++ fin ∧ GoodTrace pre ∧
      GoodTrace (fin ++ rem) ∧
      p t = rem.map Instr.port ++ Instr.unlock :: rest ∧
      GoodProg rest := h

theorem inv_init (bs0 bs1 : List (List PortOp))
    (h0 : ∀ b ∈ bs0, GoodTrace b) (h1 : ∀ b ∈ bs1, GoodTrace b) :
    Inv (initConfig bs0 bs1) := by
  refine inv_none goodTrace_nil ?_
  intro u
  cases u
  · exact ⟨bs0, rfl, h0⟩
  · exact ⟨bs1, rfl, h1⟩

/-- One step of the interleaving semantics preserves the invariant. -/
theorem step_preserves_inv {c c' : Config} (hs : Step c c') (hi : Inv c) :
    Inv c' := by
  cases hs with
  | @lock p tr t rest hpt =>
      have htr : GoodTrace tr := (inv_none_elim hi).1
      have hprog : ∀ u, GoodProg (p u) := (inv_none_elim hi).2
      rcases goodProg_shape (hprog t) with hnil | ⟨b, bs, hshape, hb, hbs⟩
      · rw [hnil] at hpt
        simp at hpt
      · have h2 := hpt.symm.trans hshape
        injection h2 with _ hre
        refine inv_some ?_ tr [] b (progOf bs) (by simp) htr
          (by simpa using hb) ?_ ⟨bs, rfl, hbs⟩
        · rw [setProg_other p rest (bool_not_ne t)]
          exact hprog (!t)
        · rw [setProg_self]
          exact hre
  | @unlock p tr t rest hpt =>
      obtain ⟨hother, pre, fin, rem, rest', htr, hpre, hfin, hpt', hrest'⟩
        := inv_some_elim hi
      cases rem with
      | cons x xs =>
          simp only [List.map_cons, List.cons_append] at hpt'
          have h2 := hpt.symm.trans hpt'
          simp at h2
      | nil =>
          simp only [List.map_nil, List.nil_append] at hpt'
          have h2 := hpt.symm.trans hpt'
          injection h2 with _ hre
          refine inv_none ?_ ?_
          · rw [htr]
            refine goodTrace_append hpre ?_
            simpa using hfin
          · intro u
            by_cases hu : u = t
            · subst hu
              rw [setProg_self, hre]
              exact hrest'
            · rw [setProg_other p rest hu, bool_eq_not_of_ne hu]
              exact hother
  | @port h p tr t op rest hpt =>
      cases h with
      | none =>
          have hprog : ∀ u, GoodProg (p u) := (inv_none_elim hi).2
          rcases goodProg_shape (hprog t) with hnil | ⟨b, bs, hshape, _, _⟩
          · rw [hnil] at hpt
            simp at hpt
          · have h2 := hpt.symm.trans hshape
            simp at h2
      | some t' =>
          obtain ⟨hother, pre, fin, rem, rest', htr, hpre, hfin, hpt',
            hrest'⟩ := inv_some_elim hi
          by_cases hteq : t = t'
          · subst hteq
            cases rem with
            | nil =>
                simp only [List.map_nil, List.nil_append] at hpt'
                have h2 := hpt.symm.trans hpt'
                simp at h2
            | cons x xs =>
                simp only [List.map_cons, List.cons_append] at hpt'
                have h2 := hpt.symm.trans hpt'
                injection h2 with h3 hre
                injection h3 with h5
                subst h5
                refine inv_some ?_ pre (fin ++ [op]) xs rest' ?_ hpre ?_ ?_
                  hrest'
                · rw [setProg_other p rest (bool_not_ne t)]
                  exact hother
                · rw [htr, List.append_assoc]
                · have hfx : fin ++ [op] ++ xs = fin ++ op :: xs := by simp
                  rw [hfx]
                  exact hfin
                · rw [setProg_self]
                  exact hre
          · rw [← bool_eq_not_of_ne hteq] at hother
            rcases goodProg_shape hother with hnil | ⟨b, bs, hshape, _, _⟩
            · rw [hnil] at hpt
              simp at hpt
            · have h2 := hpt.symm.trans hshape
              simp at h2

/-- Every execution of the interleaving semantics preserves the
invariant. -/
theorem exec_preserves_inv {c c' : Config} (he : Exec c c') (hi : Inv c) :
    Inv c' := by
  induction he with
  | refl => exact hi
  | tail _ hstep ih => exact step_preserves_inv hstep ih

theorem flatten_length_const {α : Type} {n : Nat} :
    ∀ ss : List (List α), (∀ s ∈ ss, s.length = n) →
      ss.flatten.length = n * ss.length := by
  intro ss
  induction ss with
  | nil =>
      intro _
      simp
  | cons s t ih =>
      intro hl
      rw [List.flatten_cons, List.length_append, hl s (by simp),
        ih (fun x hx => hl x (by simp [hx])), List.length_cons]
      ring

/-- C8 counterexample: a single ec_write issues 12 port accesses (six
index/data pairs), so its port trace is not a concatenation of complete
11-step sequences; shown at the concrete teardown write of 0 to the
manual-enable register. -/
theorem transport_eleven_step_refuted :
    ¬ ∃ ss : List (List PortOp),
        ec_write_ports REG_MANUAL_ENABLE 0 = ss.flatten ∧
        ∀ s ∈ ss, s.length = 11 := by
  rintro ⟨ss, hflat, hlen⟩
  have h12 : (ec_write_ports REG_MANUAL_ENABLE 0).length = 12 := rfl
  rw [hflat, flatten_length_const ss hlen] at h12
  omega

/-- C8 amended (the counterexample forces 12 steps in place of 11): the
critical sections of the driver are concatenations of complete
transport sequences, and in any complete two-thread execution of
critical sections of that shape, the hardware port trace is a
concatenation of complete, non-overlapping transport sequences, each of
12 steps — concurrent Transport operations never interleave their port
sequences, each executing fully while the bus lock is held. -/
theorem transport_sequences_atomic :
    (GoodTrace read_rpm_cs ∧ (∀ duty, GoodTrace (set_fan_speed_cs duty)) ∧
      GoodTrace set_auto_mode_cs) ∧
    ∀ (bs0 bs1 : List (List PortOp)) (c : Config),
      (∀ b ∈ bs0, GoodTrace b) → (∀ b ∈ bs1, GoodTrace b) →
      Exec (initConfig bs0 bs1) c → Terminal c →
      ∃ ss : List (List PortOp),
        c.trace = ss.flatten ∧ ∀ s ∈ ss, IsTransportSeq s ∧ s.length = 12
    := by
  constructor
  · refine ⟨⟨[ec_read_ports REG_RPM_HIGH, ec_read_ports REG_RPM_LOW],
      by simp [read_rpm_cs], ?_⟩, ?_, ?_⟩
    · intro s hs
      simp only [List.mem_cons, List.not_mem_nil, or_false] at hs
      rcases hs with rfl | rfl
      · exact Or.inr ⟨REG_RPM_HIGH, rfl⟩
      · exact Or.inr ⟨REG_RPM_LOW, rfl⟩
    · intro duty
      refine ⟨[ec_write_ports REG_PWM (scale_pwm duty),
        ec_write_ports REG_MANUAL_ENABLE 1],
        by simp [set_fan_speed_cs], ?_⟩
      intro s hs
      simp only [List.mem_cons, List.not_mem_nil, or_false] at hs
      rcases hs with rfl | rfl
      · exact Or.inl ⟨REG_PWM, scale_pwm duty, rfl⟩
      · exact Or.inl ⟨REG_MANUAL_ENABLE, 1, rfl⟩
    · refine ⟨[ec_write_ports REG_MANUAL_ENABLE 0],
        by simp [set_auto_mode_cs], ?_⟩
      intro s hs
      simp only [List.mem_cons, List.not_mem_nil, or_false] at hs
      rcases hs with rfl
      exact Or.inl ⟨REG_MANUAL_ENABLE, 0, rfl⟩
  · intro bs0 bs1 c h0 h1 hexec hterm
    have hinv := exec_preserves_inv hexec (inv_init bs0 bs1 h0 h1)
    obtain ⟨h, p, tr⟩ := c
    cases h with
    | some t =>
        obtain ⟨_, pre, fin, rem, rest', htr, hpre, hfin, hpt', hrest'⟩
          := inv_some_elim hinv
        have hpe : p t = [] := hterm t
        rw [hpe] at hpt'
        exact absurd hpt'.symm (by simp)
    | none =>
        obtain ⟨ss, hflat, hss⟩ := (inv_none_elim hinv).1
        exact ⟨ss, hflat,
          fun s hs => ⟨hss s hs, length_of_transportSeq (hss s hs)⟩⟩

/-- A thread whose next instructions are a run of port accesses can
perform them all, appending them to the trace. -/
theorem exec_port_run :
    ∀ (ops : List PortOp) (h : Option Bool) (p : Bool → List Instr)
      (tr : List PortOp) (t : Bool) (rest : List Instr),
      p t = ops.map Instr.port ++ rest →
      Exec ⟨h, p, tr⟩ ⟨h, setProg p t rest, tr ++ ops⟩ := by
  intro ops
  induction ops with
  | nil =>
      intro h p tr t rest hp
      simp only [List.map_nil, List.nil_append] at hp
      have hpp : setProg p t rest = p := by
        funext u
        by_cases hu : u = t
        · subst hu
          rw [setProg_self, hp]
        · exact setProg_other p rest hu
      rw [hpp, List.append_nil]
      exact Relation.ReflTransGen.refl
  | cons op ops ih =>
      intro h p tr t rest hp
      simp only [List.map_cons, List.cons_append] at hp
      have hstep : Step ⟨h, p, tr⟩
          ⟨h, setProg p t (ops.map Instr.port ++ rest), tr ++ [op]⟩ :=
        Step.port hp
      have hrec := ih h (setProg p t (ops.map Instr.port ++ rest))
        (tr ++ [op]) t rest (setProg_self p t _)
      rw [setProg_setProg] at hrec
      have he : tr ++ [op] ++ ops = tr ++ op :: ops := by simp
      rw [he] at hrec
      exact Relation.ReflTransGen.head hstep hrec

/-- A thread at the start of a whole critical section can execute it to
completion: lock, all port accesses, unlock. -/
theorem exec_block (b : List PortOp) (p : Bool → List Instr)
    (tr : List PortOp) (t : Bool) (rest : List Instr)
    (hp : p t = Instr.lock :: (b.map Instr.port ++ Instr.unlock :: rest)) :
    Exec ⟨none, p, tr⟩ ⟨none, setProg p t rest, tr ++ b⟩ := by
  have h1 : Step ⟨none, p, tr⟩
      ⟨some t, setProg p t (b.map Instr.port ++ Instr.unlock :: rest), tr⟩ :=
    Step.lock hp
  have h2 := exec_port_run b (some t)
    (setProg p t (b.map Instr.port ++ Instr.unlock :: rest)) tr t
    (Instr.unlock :: rest) (setProg_self p t _)
  rw [setProg_setProg] at h2
  have h3 : Step ⟨some t, setProg p t (Instr.unlock :: rest), tr ++ b⟩
      ⟨none, setProg (setProg p t (Instr.unlock :: rest)) t rest, tr ++ b⟩ :=
    Step.unlock (setProg_self p t _)
  rw [setProg_setProg] at h3
  exact Relation.ReflTransGen.head h1 (Relation.ReflTransGen.tail h2 h3)

/-- Witness for C8: the complete solo execution of one set_auto_mode
critical section reaches a terminal configuration whose port trace
decomposes into complete 12-step transport sequences. -/
theorem transport_sequences_atomic_witness :
    ∃ c : Config,
      Exec (initConfig [set_auto_mode_cs] []) c ∧ Terminal c ∧
      ∃ ss : List (List PortOp),
        c.trace = ss.flatten ∧ ∀ s ∈ ss, IsTransportSeq s ∧ s.length = 12
    := by
  have hp : (initConfig [set_auto_mode_cs] []).prog false
      = Instr.lock :: (set_auto_mode_cs.map Instr.port
          ++ Instr.unlock :: ([] : List Instr)) := by
    simp [initConfig, progOf]
  have hexec := exec_block set_auto_mode_cs
    (initConfig [set_auto_mode_cs] []).prog [] false [] hp
  have hterm : Terminal ⟨none,
      setProg (initConfig [set_auto_mode_cs] []).prog false [],
      [] ++ set_auto_mode_cs⟩ := by
    intro t
    cases t <;> rfl
  refine ⟨_, hexec, hterm, ?_⟩
  exact transport_sequences_atomic.2 [set_auto_mode_cs] [] _
    (by
      intro b hb
      simp only [List.mem_singleton] at hb
      subst hb
      exact transport_sequences_atomic.1.2.2)
    (by intro b hb; simp at hb)
    hexec hterm

/-- C10: reading the pwm-enable or pwm-input attribute returns purely
from the cached fan state: the result does not depend on the hardware
oracle, the event trace is empty (no lock acquisition, no EC access),
and fan_read never modifies the cached state (it returns none). -/
theorem fan_read_pwm_pure_cached :
    ∀ (d : GpdFanData) (hw : Nat → Nat),
      fan_read d hw HwmonType.hwmon_pwm hwmon_pwm_enable
        = (Except.ok (if d.manual_mode then 1 else 0), []) ∧
      fan_read d hw HwmonType.hwmon_pwm hwmon_pwm_input
        = (Except.ok (if d.manual_mode then d.pwm_value else 0), []) := by
  intro d hw
  constructor
  · simp [fan_read, hwmon_fan_input, hwmon_pwm_enable, hwmon_pwm_input]
  · simp [fan_read, hwmon_fan_input, hwmon_pwm_enable, hwmon_pwm_input]

end GpdFan
